import Mathlib

/-!
Verification development for the ManagedCluster lifecycle reconciler
(`internal/controller/managedcluster_controller.go`).  Go functions are
shallowly embedded as pure Lean functions; calls to external collaborators
(the object store, the helm release engine, the provider propagation
routines) are represented by oracle fields of environment structures, and
the side-effecting calls a reconcile pass issues are recorded in an
explicit effect trace.
-/

namespace HMC

/-- Status value of a condition: True / False / Unknown. -/
inductive CStatus where
  | isTrue
  | isFalse
  | unknown
deriving DecidableEq, Repr

/-- A status condition `{type, status, reason, message}` keyed by type. -/
structure Condition where
  condType : String
  status : CStatus
  reason : String
  message : String
deriving DecidableEq, Repr

def ReadyCondition : String := "Ready"

def TemplateReadyCondition : String := "TemplateReady"

def HelmChartReadyCondition : String := "HelmChartReady"

def HelmReleaseReadyCondition : String := "HelmReleaseReady"

def CredentialReadyCondition : String := "CredentialReady"

def CredentialsPropagatedCondition : String := "CredentialsPropagated"

def FailedReason : String := "Failed"

def SucceededReason : String := "Succeeded"

def ProgressingReason : String := "Progressing"

/-- Generic insert-or-update into a list keyed by a string-valued key
function: if an entry with the same key exists it is replaced in place,
otherwise the new entry is appended.  This is the shared shape of
`apimeta.SetStatusCondition` on a condition list and of a Go map update
(observed through its key-value pairs). -/
def upsertByKey {α : Type} (key : α → String) (l : List α) (a : α) : List α :=
  if l.any (fun x => decide (key x = key a)) then
    l.map (fun x => if key x = key a then a else x)
  else
    l ++ [a]

/-- Generic first-entry lookup by key. -/
def findByKey {α : Type} (key : α → String) (l : List α) (k : String) : Option α :=
  l.find? (fun x => decide (key x = k))

/-- `apimeta.SetStatusCondition`: insert or update a condition by type. -/
def setStatusCondition (conds : List Condition) (c : Condition) : List Condition :=
  upsertByKey Condition.condType conds c

/-- Lookup of a condition by type. -/
def getCond (conds : List Condition) (ty : String) : Option Condition :=
  findByKey Condition.condType conds ty

theorem find_map_replace {α : Type} (key : α → String) (a : α) (l : List α) :
    (l.map (fun x => if key x = key a then a else x)).find?
        (fun x => decide (key x = key a)) =
      if l.any (fun x => decide (key x = key a)) then some a else none := by
  induction l with
  | nil => rfl
  | cons x xs ih =>
    by_cases h : key x = key a
    · simp [h, List.find?, List.any_cons]
    · simp [h, List.find?, List.any_cons, ih]

theorem find_append_singleton {α : Type} (p : α → Bool) (l : List α) (a : α)
    (h : l.any p = false) :
    (l ++ [a]).find? p = if p a then some a else none := by
  induction l with
  | nil => cases hpa : p a <;> simp [List.find?, hpa]
  | cons x xs ih =>
    simp only [List.any_cons, Bool.or_eq_false_iff] at h
    simp [List.find?, h.1, ih h.2]

theorem find_append_singleton_neg {α : Type} (p : α → Bool) (l : List α) (a : α)
    (h : p a = false) :
    (l ++ [a]).find? p = l.find? p := by
  induction l with
  | nil => simp [List.find?, h]
  | cons x xs ih =>
    cases hx : p x <;> simp [List.find?, hx, ih]

theorem findByKey_upsert_self {α : Type} (key : α → String) (l : List α) (a : α) :
    findByKey key (upsertByKey key l a) (key a) = some a := by
  unfold findByKey upsertByKey
  by_cases h : l.any (fun x => decide (key x = key a)) = true
  · simp only [h, if_true]
    rw [find_map_replace, if_pos h]
  · simp only [Bool.not_eq_true] at h
    simp only [h, Bool.false_eq_true, if_false]
    rw [find_append_singleton _ _ _ h]
    simp

theorem find_map_replace_other {α : Type} (key : α → String) (a : α) (k : String)
    (hk : k ≠ key a) (l : List α) :
    (l.map (fun x => if key x = key a then a else x)).find?
        (fun x => decide (key x = k)) =
      l.find? (fun x => decide (key x = k)) := by
  induction l with
  | nil => rfl
  | cons x xs ih =>
    by_cases h : key x = key a
    · have hx : (key x = k) = False := by
        simp [h]; exact fun hc => hk hc.symm
      have ha : (key a = k) = False := by
        simp; exact fun hc => hk hc.symm
      simp [List.find?, h, hx, ha, ih]
    · by_cases h2 : key x = k
      · simp [List.find?, h, h2, hk]
      · simp [List.find?, h, h2, ih]

theorem findByKey_upsert_other {α : Type} (key : α → String) (l : List α) (a : α)
    (k : String) (hk : k ≠ key a) :
    findByKey key (upsertByKey key l a) k = findByKey key l k := by
  unfold findByKey upsertByKey
  by_cases h : l.any (fun x => decide (key x = key a)) = true
  · simp only [h, if_true]
    exact find_map_replace_other key a k hk l
  · simp only [Bool.not_eq_true] at h
    simp only [h, Bool.false_eq_true, if_false]
    exact find_append_singleton_neg _ l a (by simp; exact fun hc => hk hc.symm)

theorem getCond_set_self (conds : List Condition) (c : Condition) :
    getCond (setStatusCondition conds c) c.condType = some c :=
  findByKey_upsert_self Condition.condType conds c

theorem getCond_set_other (conds : List Condition) (c : Condition) (ty : String)
    (h : ty ≠ c.condType) :
    getCond (setStatusCondition conds c) ty = getCond conds ty :=
  findByKey_upsert_other Condition.condType conds c ty h

/-- Kubernetes object reference, as carried by `Credential.Spec.IdentityRef`. -/
structure ObjRef where
  kind : String
  name : String
  ns : String
deriving DecidableEq, Repr

/-- Top-level JSON values of the configuration payload.  The payload is
observed through its decoded form `map[string]any`; the values themselves
are opaque to the reconciler except for the injected identity reference. -/
inductive JVal where
  | str : String → JVal
  | num : Int → JVal
  | flag : Bool → JVal
  | idRef : ObjRef → JVal
deriving DecidableEq, Repr

/-- Key update on a decoded JSON object (a Go `map[string]any` assignment,
observed through its key-value pairs). -/
def setKey (m : List (String × JVal)) (k : String) (v : JVal) : List (String × JVal) :=
  upsertByKey Prod.fst m (k, v)

/-- Key lookup on a decoded JSON object. -/
def getVal (m : List (String × JVal)) (k : String) : Option JVal :=
  (findByKey Prod.fst m k).map Prod.snd

/-- `setIdentityHelmValues`: decode the configuration payload, overwrite
the top-level key "clusterIdentity" with the credential identity
reference, re-encode.  The decode/encode round trip is the identity on
the key-value map. -/
def setIdentityHelmValues (values : List (String × JVal)) (idRef : ObjRef) :
    List (String × JVal) :=
  setKey values "clusterIdentity" (JVal.idRef idRef)

theorem getVal_setKey_self (m : List (String × JVal)) (k : String) (v : JVal) :
    getVal (setKey m k v) k = some v := by
  unfold getVal setKey
  rw [show k = Prod.fst (k, v) from rfl, findByKey_upsert_self]
  rfl

theorem getVal_setKey_other (m : List (String × JVal)) (k : String) (v : JVal)
    (k2 : String) (h : k2 ≠ k) :
    getVal (setKey m k v) k2 = getVal m k2 := by
  unfold getVal setKey
  rw [findByKey_upsert_other Prod.fst m (k, v) k2 h]

/-- The byte sequence of the literal "infrastructure-". -/
def infraMarker : List Char := "infrastructure-".data

/-- Check whether `pre` occurs at the head of `s`. -/
def matchesAt (pre s : List Char) : Bool := decide (s.take pre.length = pre)

/-- Suffix of `s` after the first occurrence of `pre`, if any: the model of
`strings.Index(v, pre)` followed by slicing at `idx + len(pre)`. -/
def stripAfter (pre : List Char) : List Char → Option (List Char)
  | [] => none
  | c :: cs => if matchesAt pre (c :: cs) then some ((c :: cs).drop pre.length)
               else stripAfter pre cs

/-- Extraction of an infrastructure provider name from one entry of
`Template.Status.Providers` (the body of the loop in
`getInfraProvidersNames`). -/
def stripInfra (v : String) : Option String :=
  (stripAfter infraMarker v.data).map (fun cs => String.mk cs)

/-- `getInfraProvidersNames`, applied to the already-fetched
`Template.Status.Providers` list. -/
def getInfraProvidersNames (providers : List String) : List String :=
  providers.filterMap stripInfra

/-- Side-effecting calls a reconcile pass can issue against external
collaborators, in issue order. -/
inductive Effect where
  | addFinalizer
  | upsertRelease (values : List (String × JVal))
  | deleteRelease
  | deleteProfile
  | patchBlockingFinalizer (provider : String)
  | removeOwnFinalizer
  | reconcileProfile
  | propagateAzure
  | propagateVSphere
deriving DecidableEq, Repr

/-- The umbrella Ready condition computed by `updateStatus`: one pass over
the conditions accumulates Unknown messages into `warnings` and False
messages into `errs` (skipping the Ready condition itself), then the
Ready condition is overwritten first by the Unknown form and then by the
False form when the respective accumulator is non-empty. -/
def computeReadyCondition (conds : List Condition) : Condition :=
  let warnings := conds.foldl (fun acc c =>
    if c.condType = ReadyCondition then acc
    else if c.status = CStatus.unknown then acc ++ c.message ++ ". " else acc) ""
  let errs := conds.foldl (fun acc c =>
    if c.condType = ReadyCondition then acc
    else if c.status = CStatus.isFalse then acc ++ c.message ++ ". " else acc) ""
  let c0 : Condition :=
    ⟨ReadyCondition, CStatus.isTrue, SucceededReason, "ManagedCluster is ready"⟩
  let c1 := if warnings ≠ "" then
    ⟨ReadyCondition, CStatus.unknown, ProgressingReason, warnings⟩ else c0
  if errs ≠ "" then ⟨ReadyCondition, CStatus.isFalse, FailedReason, errs⟩ else c1

/-- Condition set persisted by `updateStatus`: the recomputed Ready
condition is merged into the ledger (timestamps and the store write are
outside the model; `ObservedGeneration` and the upgrade list are tracked
separately). -/
def updateStatusConditions (conds : List Condition) : List Condition :=
  setStatusCondition conds (computeReadyCondition conds)

/-- Non-Ready conditions with status False, in ledger order. -/
def falseConds (conds : List Condition) : List Condition :=
  conds.filter (fun c =>
    decide (¬ c.condType = ReadyCondition ∧ c.status = CStatus.isFalse))

/-- Non-Ready conditions with status Unknown, in ledger order. -/
def unknownConds (conds : List Condition) : List Condition :=
  conds.filter (fun c =>
    decide (¬ c.condType = ReadyCondition ∧ c.status = CStatus.unknown))

/-- Concatenation of the messages of a list of conditions, each terminated
by ". " as `updateStatus` emits them. -/
def concatMessages : List Condition → String
  | [] => ""
  | c :: rest => c.message ++ ". " ++ concatMessages rest

theorem str_append_assoc (a b c : String) : a ++ b ++ c = a ++ (b ++ c) := by
  cases a; cases b; cases c
  exact congrArg String.mk (List.append_assoc _ _ _)

theorem str_append_empty (a : String) : a ++ "" = a := by
  cases a
  exact congrArg String.mk (List.append_nil _)

theorem str_empty_append (a : String) : "" ++ a = a := by
  cases a
  exact congrArg String.mk (List.nil_append _)

theorem str_data_append (a b : String) : (a ++ b).data = a.data ++ b.data := by
  cases a; cases b; rfl

theorem concatMessages_ne_empty (c : Condition) (rest : List Condition) :
    concatMessages (c :: rest) ≠ "" := by
  intro h
  have hd := congrArg String.data h
  rw [show concatMessages (c :: rest) = c.message ++ ". " ++ concatMessages rest from rfl]
    at hd
  rw [str_data_append, str_data_append] at hd
  simp only [show ("" : String).data = [] from rfl] at hd
  simp at hd

theorem concatMessages_eq_empty_iff (l : List Condition) :
    concatMessages l = "" ↔ l = [] := by
  cases l with
  | nil => simp [concatMessages]
  | cons c rest =>
    simp only [iff_false, List.cons_ne_nil]
    exact concatMessages_ne_empty c rest

theorem errs_fold_eq (conds : List Condition) (init : String) :
    conds.foldl (fun acc c =>
        if c.condType = ReadyCondition then acc
        else if c.status = CStatus.isFalse then acc ++ c.message ++ ". " else acc)
      init = init ++ concatMessages (falseConds conds) := by
  induction conds generalizing init with
  | nil => simp [falseConds, concatMessages, str_append_empty]
  | cons c rest ih =>
    by_cases hR : c.condType = ReadyCondition
    · simp only [List.foldl_cons, hR, if_true]
      rw [ih]
      have : falseConds (c :: rest) = falseConds rest := by
        simp [falseConds, List.filter_cons, hR]
      rw [this]
    · by_cases hs : c.status = CStatus.isFalse
      · simp only [List.foldl_cons, hR, if_false, hs, if_true]
        rw [ih]
        have : falseConds (c :: rest) = c :: falseConds rest := by
          simp [falseConds, List.filter_cons, hR, hs]
        rw [this, show concatMessages (c :: falseConds rest)
              = c.message ++ ". " ++ concatMessages (falseConds rest) from rfl]
        rw [str_append_assoc init c.message ". ",
            str_append_assoc init (c.message ++ ". ") _,
            str_append_assoc c.message ". " _]
      · simp only [List.foldl_cons, hR, if_false, hs, if_false]
        rw [ih]
        have : falseConds (c :: rest) = falseConds rest := by
          simp [falseConds, List.filter_cons, hR, hs]
        rw [this]

theorem warnings_fold_eq (conds : List Condition) (init : String) :
    conds.foldl (fun acc c =>
        if c.condType = ReadyCondition then acc
        else if c.status = CStatus.unknown then acc ++ c.message ++ ". " else acc)
      init = init ++ concatMessages (unknownConds conds) := by
  induction conds generalizing init with
  | nil => simp [unknownConds, concatMessages, str_append_empty]
  | cons c rest ih =>
    by_cases hR : c.condType = ReadyCondition
    · simp only [List.foldl_cons, hR, if_true]
      rw [ih]
      have : unknownConds (c :: rest) = unknownConds rest := by
        simp [unknownConds, List.filter_cons, hR]
      rw [this]
    · by_cases hs : c.status = CStatus.unknown
      · simp only [List.foldl_cons, hR, if_false, hs, if_true]
        rw [ih]
        have : unknownConds (c :: rest) = c :: unknownConds rest := by
          simp [unknownConds, List.filter_cons, hR, hs]
        rw [this, show concatMessages (c :: unknownConds rest)
              = c.message ++ ". " ++ concatMessages (unknownConds rest) from rfl]
        rw [str_append_assoc init c.message ". ",
            str_append_assoc init (c.message ++ ". ") _,
            str_append_assoc c.message ". " _]
      · simp only [List.foldl_cons, hR, if_false, hs, if_false]
        rw [ih]
        have : unknownConds (c :: rest) = unknownConds rest := by
          simp [unknownConds, List.filter_cons, hR, hs]
        rw [this]

theorem computeReady_eq (conds : List Condition) :
    computeReadyCondition conds =
      (if falseConds conds ≠ [] then
        ⟨ReadyCondition, CStatus.isFalse, FailedReason,
          concatMessages (falseConds conds)⟩
      else if unknownConds conds ≠ [] then
        ⟨ReadyCondition, CStatus.unknown, ProgressingReason,
          concatMessages (unknownConds conds)⟩
      else
        ⟨ReadyCondition, CStatus.isTrue, SucceededReason,
          "ManagedCluster is ready"⟩ : Condition) := by
  unfold computeReadyCondition
  rw [errs_fold_eq conds "", warnings_fold_eq conds "",
      str_empty_append, str_empty_append]
  by_cases hf : falseConds conds = []
  · by_cases hu : unknownConds conds = []
    · simp [hf, hu, concatMessages]
    · have h1 : concatMessages (unknownConds conds) ≠ "" := by
        rw [Ne, concatMessages_eq_empty_iff]; exact hu
      simp [hf, hu, concatMessages, h1]
  · have h1 : concatMessages (falseConds conds) ≠ "" := by
      rw [Ne, concatMessages_eq_empty_iff]; exact hf
    simp [hf, h1]

/-- Environment of `reconcileCredentialPropagation`: outcomes of the
collaborator calls it makes (template fetch for the provider list,
kubeconfig secret fetch, and the two provider propagation routines). -/
structure PropagationEnv where
  ns : String
  name : String
  providersRaw : Except String (List String)
  kubeconfFetch : Except String Unit
  azureResult : Except String Unit
  vsphereResult : Except String Unit

/-- The provider dispatch loop of `reconcileCredentialPropagation`:
aws is skipped with a log line; azure and vsphere invoke their
propagation routine (recorded in the effect trace) and on failure set the
CredentialsPropagated condition False and return the error, ending the
loop; any other provider sets the condition False with an
"unsupported infrastructure provider" message and the loop continues. -/
def propagationLoop (az vs : Except String Unit) :
    List String → List Condition → List Condition × List Effect × Option String
  | [], conds => (conds, [], none)
  | p :: rest, conds =>
    if p = "aws" then propagationLoop az vs rest conds
    else if p = "azure" then
      match az with
      | .error e =>
        let errMsg := "failed to create Azure CCM credentials: " ++ e
        (setStatusCondition conds
          ⟨CredentialsPropagatedCondition, CStatus.isFalse, FailedReason, errMsg⟩,
         [Effect.propagateAzure], some errMsg)
      | .ok _ =>
        let conds2 := setStatusCondition conds
          ⟨CredentialsPropagatedCondition, CStatus.isTrue, SucceededReason,
            "Azure CCM credentials created"⟩
        let out := propagationLoop az vs rest conds2
        (out.1, Effect.propagateAzure :: out.2.1, out.2.2)
    else if p = "vsphere" then
      match vs with
      | .error e =>
        let errMsg := "failed to create vSphere CCM credentials: " ++ e
        (setStatusCondition conds
          ⟨CredentialsPropagatedCondition, CStatus.isFalse, FailedReason, errMsg⟩,
         [Effect.propagateVSphere], some errMsg)
      | .ok _ =>
        let conds2 := setStatusCondition conds
          ⟨CredentialsPropagatedCondition, CStatus.isTrue, SucceededReason,
            "vSphere CCM credentials created"⟩
        let out := propagationLoop az vs rest conds2
        (out.1, Effect.propagateVSphere :: out.2.1, out.2.2)
    else
      propagationLoop az vs rest (setStatusCondition conds
        ⟨CredentialsPropagatedCondition, CStatus.isFalse, FailedReason,
          "unsupported infrastructure provider " ++ p⟩)

/-- `reconcileCredentialPropagation`: fetch the provider list and the
kubeconfig secret, then run the dispatch loop.  Returns the updated
ledger, the effect trace and the returned error. -/
def reconcileCredentialPropagation (env : PropagationEnv) (conds : List Condition) :
    List Condition × List Effect × Option String :=
  match env.providersRaw with
  | .error e =>
    (conds, [], some ("failed to get cluster providers for cluster "
      ++ env.ns ++ "/" ++ env.name ++ ": " ++ e))
  | .ok raw =>
    match env.kubeconfFetch with
    | .error e =>
      (conds, [], some ("failed to get kubeconfig secret for cluster "
        ++ env.ns ++ "/" ++ env.name ++ ": " ++ e))
    | .ok _ =>
      propagationLoop env.azureResult env.vsphereResult
        (getInfraProvidersNames raw) conds

theorem propagationLoop_effects_sub (az vs : Except String Unit)
    (l : List String) (conds : List Condition) (e : Effect)
    (h : e ∈ (propagationLoop az vs l conds).2.1) :
    e = Effect.propagateAzure ∨ e = Effect.propagateVSphere := by
  induction l generalizing conds with
  | nil => simp [propagationLoop] at h
  | cons p rest ih =>
    simp only [propagationLoop] at h
    by_cases h1 : p = "aws"
    · rw [if_pos h1] at h; exact ih _ h
    · rw [if_neg h1] at h
      by_cases h2 : p = "azure"
      · rw [if_pos h2] at h
        cases az with
        | error s => simp at h; simp [h]
        | ok u =>
          simp at h
          rcases h with h | h
          · simp [h]
          · exact ih _ h
      · rw [if_neg h2] at h
        by_cases h3 : p = "vsphere"
        · rw [if_pos h3] at h
          cases vs with
          | error s => simp at h; simp [h]
          | ok u =>
            simp at h
            rcases h with h | h
            · simp [h]
            · exact ih _ h
        · rw [if_neg h3] at h
          exact ih _ h

/-- State of the workload cluster object, as read back by `getCluster`. -/
structure WorkloadCluster where
  name : String
  hasBlockingFinalizer : Bool
deriving DecidableEq, Repr

/-- Result of the `getCluster` label-selector lookup for one provider:
a found object, a List call error (which may or may not be a Kubernetes
NotFound), or an empty listing, for which `getCluster` fabricates a plain
"... was not found" error (never a Kubernetes NotFound). -/
inductive GetClusterRes where
  | found (c : WorkloadCluster)
  | listErr (msg : String) (isNotFound : Bool)
  | empty
deriving DecidableEq, Repr

/-- Result of fetching the managed HelmRelease at the start of `Delete`. -/
inductive HrGetRes where
  | found
  | notFound
  | errored (msg : String)
deriving DecidableEq, Repr

/-- Environment of one deletion-path reconcile pass (`Delete`). -/
structure DeleteEnv where
  name : String
  ns : String
  hrGet : HrGetRes
  ownFinalizerPresent : Bool
  deleteReleaseErr : Option String
  deleteProfileErr : Option String
  providersRaw : Except String (List String)
  getCluster : String → GetClusterRes
  machinesExist : String → Except String Bool
  patchErr : String → Option String

/-- Kind of the provider workload object, from the fixed provider → GVK
table in `releaseCluster`. -/
def providerKind (p : String) : String :=
  if p = "aws" then "AWSCluster" else "AzureCluster"

/-- The provider loop of `releaseCluster`: for each provider with a known
GVK, locate the workload object; on a Kubernetes NotFound for aws, end the
loop successfully; if dependent Machine objects still exist, go on to the
next provider; if none exist, remove the blocking finalizer from the
workload object (a patch, recorded in the trace) and end the loop. -/
def releaseClusterLoop (env : DeleteEnv) : List String → List Effect × Option String
  | [] => ([], none)
  | p :: rest =>
    if p ≠ "aws" ∧ p ≠ "azure" then releaseClusterLoop env rest
    else
      match env.getCluster p with
      | .listErr m nf => if p = "aws" ∧ nf then ([], none) else ([], some m)
      | .empty =>
        ([], some (providerKind p ++ " with name " ++ env.name ++ " was not found"))
      | .found c =>
        match env.machinesExist c.name with
        | .error m => ([], some m)
        | .ok true => releaseClusterLoop env rest
        | .ok false =>
          if c.hasBlockingFinalizer then
            ([Effect.patchBlockingFinalizer p], env.patchErr c.name)
          else ([], none)

/-- Result of one deletion-path pass. -/
structure DeleteOut where
  requeueAfter : Option Nat
  errMsg : Option String
  effects : List Effect
deriving DecidableEq, Repr

/-- One deletion-path reconcile pass (`Delete`): if the managed
HelmRelease is gone, remove the object's own finalizer and finish;
otherwise request deletion of the release, explicitly request deletion of
the Sveltos profile, run `releaseCluster`, and requeue after 10 seconds. -/
def deleteReconcile (env : DeleteEnv) : DeleteOut :=
  match env.hrGet with
  | .errored m => ⟨none, some m, []⟩
  | .notFound =>
    ⟨none, none, if env.ownFinalizerPresent then [Effect.removeOwnFinalizer] else []⟩
  | .found =>
    match env.deleteReleaseErr with
    | some e => ⟨none, some e, [Effect.deleteRelease]⟩
    | none =>
      match env.deleteProfileErr with
      | some e => ⟨none, some e, [Effect.deleteRelease, Effect.deleteProfile]⟩
      | none =>
        match env.providersRaw with
        | .error e => ⟨none, some e, [Effect.deleteRelease, Effect.deleteProfile]⟩
        | .ok raw =>
          let rc := releaseClusterLoop env (getInfraProvidersNames raw)
          match rc.2 with
          | some e =>
            ⟨none, some e, Effect.deleteRelease :: Effect.deleteProfile :: rc.1⟩
          | none =>
            ⟨some 10, none, Effect.deleteRelease :: Effect.deleteProfile :: rc.1⟩

theorem releaseClusterLoop_effects_sub (env : DeleteEnv) (l : List String)
    (e : Effect) (h : e ∈ (releaseClusterLoop env l).1) :
    ∃ p c, e = Effect.patchBlockingFinalizer p ∧ env.getCluster p = .found c ∧
      c.hasBlockingFinalizer = true ∧ env.machinesExist c.name = .ok false := by
  induction l with
  | nil => simp [releaseClusterLoop] at h
  | cons p rest ih =>
    simp only [releaseClusterLoop] at h
    by_cases h1 : p ≠ "aws" ∧ p ≠ "azure"
    · rw [if_pos h1] at h; exact ih h
    · rw [if_neg h1] at h
      cases hg : env.getCluster p with
      | listErr m nf =>
        simp only [hg] at h
        by_cases h2 : p = "aws" ∧ nf = true
        · rw [if_pos h2] at h; simp at h
        · rw [if_neg h2] at h; simp at h
      | empty => simp only [hg] at h; simp at h
      | found c =>
        simp only [hg] at h
        cases hm : env.machinesExist c.name with
        | error m => simp only [hm] at h; simp at h
        | ok b =>
          cases b with
          | true => simp only [hm] at h; exact ih h
          | false =>
            simp only [hm] at h
            by_cases hb : c.hasBlockingFinalizer = true
            · rw [if_pos hb] at h
              simp at h
              exact ⟨p, c, h, hg, hb, hm⟩
            · rw [if_neg hb] at h; simp at h

/-- Template state as read by the creation path: validity flag, the
resolved Kubernetes version, whether `Status.ChartRef` is non-nil, and the
provider identifiers. -/
structure ClusterTemplate where
  valid : Bool
  kubernetesVersion : String
  chartRefPresent : Bool
  providers : List String
deriving DecidableEq, Repr

/-- Credential state: readiness state string plus the identity
reference. -/
structure Credential where
  state : String
  identityRef : ObjRef
deriving DecidableEq, Repr

/-- The value of `hmc.CredentialReady`, the state a Credential must reach
before propagation. -/
def credentialReadyState : String := "Ready"

/-- The managed HelmRelease as read back from the upsert, observed through
its own Ready condition (`fluxconditions.Get(hr, meta.ReadyCondition)`). -/
structure HelmRelease where
  readyCondition : Option Condition
deriving DecidableEq, Repr

/-- `fluxconditions.IsReady`: the release has a Ready condition and its
status is True. -/
def hrIsReady (hr : HelmRelease) : Bool :=
  match hr.readyCondition with
  | some c => decide (c.status = CStatus.isTrue)
  | none => false

/-- Result of the CAPI cluster conditions query made by
`setStatusFromClusterStatus`. -/
inductive ClusterStatusRes where
  | resourceNotFound
  | errored (msg : String)
  | ok (conds : List Condition)

/-- Outcome of a template fetch: Kubernetes NotFound versus any other
error. -/
inductive FetchErr where
  | notFound
  | other (msg : String)
deriving DecidableEq, Repr

/-- `setStatusFromClusterStatus`: mirror the downstream cluster's
conditions onto the ledger (defaulting an empty reason of a True condition
to "Succeeded"), and report whether any condition is not yet True
(requesting a requeue).  A missing downstream resource requests a requeue
without error; any other query error is returned. -/
def setStatusFromClusterStatus (res : ClusterStatusRes) (conds : List Condition) :
    List Condition × Bool × Option String :=
  match res with
  | .resourceNotFound => (conds, true, none)
  | .errored m => (conds, false, some ("failed to get conditions: " ++ m))
  | .ok rcs =>
    let allComplete := rcs.all (fun c => decide (c.status = CStatus.isTrue))
    let conds2 := rcs.foldl (fun acc c =>
      setStatusCondition acc
        (if c.reason = "" ∧ c.status = CStatus.isTrue
         then { c with reason := "Succeeded" } else c)) conds
    (conds2, !allComplete, none)

/-- Environment of one creation-path reconcile pass (`Update`): the state
of the object and the outcomes of every external call the pass can
make. -/
structure UpdateEnv where
  finalizerPresent : Bool
  conditionsAtEntry : List Condition
  dryRun : Bool
  config : List (String × JVal)
  templateFetch : Except FetchErr ClusterTemplate
  sourceGet : Except String Unit
  downloadChart : Except String Unit
  actionCfgErr : Option String
  validateRelease : Except String Unit
  credentialFetch : Except String Credential
  upsertResult : Except String HelmRelease
  clusterStatus : ClusterStatusRes
  prop : PropagationEnv
  svcOptsErr : Option String
  profileErr : Option String

/-- Result of one creation-path reconcile pass. -/
structure UpdateOut where
  requeueAfter : Option Nat
  errMsg : Option String
  conditions : List Condition
  effects : List Effect

/-- Every exit path of `Update` (after the finalizer-add early return)
runs through the deferred `updateStatus`, which recomputes the umbrella
Ready condition before persisting. -/
def finishStatus (conds : List Condition) (requeue : Option Nat)
    (e : Option String) (effs : List Effect) : UpdateOut :=
  ⟨requeue, e, updateStatusConditions conds, effs⟩

/-- `Modelled from the spec:` `ManagedCluster.InitConditions` lives in the
repository's API package, which is not part of the reconciler source here.
The spec gives no explicit initialization rule; consistent with section
4.6 (state encoded as condition combinations, every listed condition
re-evaluated each pass) and the dry-run scenario of section 8 (Ready
becomes True after one successful dry-run pass), it is modelled as seeding
the conditions the driver evaluates on every pass — TemplateReady,
HelmChartReady and CredentialReady — as Unknown/Pending. -/
def initConditions (conds : List Condition) : List Condition :=
  setStatusCondition (setStatusCondition (setStatusCondition conds
    ⟨TemplateReadyCondition, CStatus.unknown, ProgressingReason, "Pending"⟩)
    ⟨HelmChartReadyCondition, CStatus.unknown, ProgressingReason, "Pending"⟩)
    ⟨CredentialReadyCondition, CStatus.unknown, ProgressingReason, "Pending"⟩

/-- The tail of `Update` from the dry-run check on: in dry-run mode do
nothing further; otherwise inject the identity reference into the values,
upsert the managed release, mirror its Ready condition, aggregate the
downstream cluster status, poll readiness, propagate credentials and
reconcile the service profile, requeueing or erroring as the source
does. -/
def updateAfterCredential (env : UpdateEnv) (cred : Credential)
    (conds : List Condition) : UpdateOut :=
  if env.dryRun then finishStatus conds none none []
  else
    let helmValues := setIdentityHelmValues env.config cred.identityRef
    match env.upsertResult with
    | .error e =>
      finishStatus (setStatusCondition conds
        ⟨HelmReleaseReadyCondition, CStatus.isFalse, FailedReason, e⟩)
        none (some e) [Effect.upsertRelease helmValues]
    | .ok hr =>
      let conds1 := match hr.readyCondition with
        | some c => setStatusCondition conds
            ⟨HelmReleaseReadyCondition, c.status, c.reason, c.message⟩
        | none => conds
      let cs := setStatusFromClusterStatus env.clusterStatus conds1
      match cs.2.2 with
      | some e =>
        if cs.2.1 then
          finishStatus cs.1 (some 10) (some e) [Effect.upsertRelease helmValues]
        else
          finishStatus cs.1 none (some e) [Effect.upsertRelease helmValues]
      | none =>
        if cs.2.1 then
          finishStatus cs.1 (some 10) none [Effect.upsertRelease helmValues]
        else if !hrIsReady hr then
          finishStatus cs.1 (some 10) none [Effect.upsertRelease helmValues]
        else
          let pr := reconcileCredentialPropagation env.prop cs.1
          match pr.2.2 with
          | some e =>
            finishStatus pr.1 none (some e)
              (Effect.upsertRelease helmValues :: pr.2.1)
          | none =>
            match env.svcOptsErr with
            | some e =>
              finishStatus pr.1 none (some e)
                (Effect.upsertRelease helmValues :: pr.2.1)
            | none =>
              match env.profileErr with
              | some e =>
                finishStatus pr.1 none
                  (some ("failed to reconcile Profile: " ++ e))
                  (Effect.upsertRelease helmValues :: pr.2.1
                    ++ [Effect.reconcileProfile])
              | none =>
                finishStatus pr.1 (some 10) none
                  (Effect.upsertRelease helmValues :: pr.2.1
                    ++ [Effect.reconcileProfile])

/-- One creation-path reconcile pass (`Update`): ensure the finalizer
(returning immediately when it was added), initialize empty conditions,
validate the template, resolve and validate the chart, check the
credential — note the source sets CredentialReady False when the
credential is not ready and then unconditionally overwrites it with True
and continues — then run the release tail. -/
def update (env : UpdateEnv) : UpdateOut :=
  if !env.finalizerPresent then
    ⟨none, none, env.conditionsAtEntry, [Effect.addFinalizer]⟩
  else
    let conds0 := if env.conditionsAtEntry.isEmpty
      then initConditions env.conditionsAtEntry else env.conditionsAtEntry
    match env.templateFetch with
    | .error fe =>
      let m := match fe with
        | .notFound => "provided template is not found"
        | .other s => "failed to get provided template: " ++ s
      finishStatus (setStatusCondition conds0
        ⟨TemplateReadyCondition, CStatus.isFalse, FailedReason, m⟩)
        none (some (match fe with | .notFound => "not found" | .other s => s)) []
    | .ok t =>
      if !t.valid then
        finishStatus (setStatusCondition conds0
          ⟨TemplateReadyCondition, CStatus.isFalse, FailedReason,
            "provided template is not marked as valid"⟩)
          none (some "provided template is not marked as valid") []
      else
        let conds1 := setStatusCondition conds0
          ⟨TemplateReadyCondition, CStatus.isTrue, SucceededReason,
            "Template is valid"⟩
        let src := if t.chartRefPresent then env.sourceGet
          else Except.error "helm chart source is not provided"
        match src with
        | .error e =>
          finishStatus (setStatusCondition conds1
            ⟨HelmChartReadyCondition, CStatus.isFalse, FailedReason,
              "failed to get helm chart source: " ++ e⟩)
            none (some e) []
        | .ok _ =>
          match env.downloadChart with
          | .error e =>
            finishStatus (setStatusCondition conds1
              ⟨HelmChartReadyCondition, CStatus.isFalse, FailedReason,
                "failed to download helm chart: " ++ e⟩)
              none (some e) []
          | .ok _ =>
            match env.actionCfgErr with
            | some e => finishStatus conds1 none (some e) []
            | none =>
              match env.validateRelease with
              | .error e =>
                finishStatus (setStatusCondition conds1
                  ⟨HelmChartReadyCondition, CStatus.isFalse, FailedReason,
                    "failed to validate template with provided configuration: "
                      ++ e⟩)
                  none (some e) []
              | .ok _ =>
                let conds2 := setStatusCondition conds1
                  ⟨HelmChartReadyCondition, CStatus.isTrue, SucceededReason,
                    "Helm chart is valid"⟩
                match env.credentialFetch with
                | .error e =>
                  finishStatus (setStatusCondition conds2
                    ⟨CredentialReadyCondition, CStatus.isFalse, FailedReason,
                      "Failed to get Credential: " ++ e⟩)
                    none (some e) []
                | .ok cred =>
                  let conds3 := if cred.state ≠ credentialReadyState then
                    setStatusCondition conds2
                      ⟨CredentialReadyCondition, CStatus.isFalse, FailedReason,
                        "Credential is not in Ready state"⟩
                    else conds2
                  let conds4 := setStatusCondition conds3
                    ⟨CredentialReadyCondition, CStatus.isTrue, SucceededReason,
                      "Credential is Ready"⟩
                  updateAfterCredential env cred conds4

/-- One declared upgrade target of a supported-template entry. -/
structure AvailableUpgrade where
  name : String
deriving DecidableEq, Repr

/-- One supported-template entry of a Template Chain. -/
structure SupportedTemplate where
  name : String
  availableUpgrades : List AvailableUpgrade
deriving DecidableEq, Repr

/-- A Template Chain: its list of supported-template entries. -/
structure TemplateChain where
  supportedTemplates : List SupportedTemplate
deriving DecidableEq, Repr

/-- The map built by `setAvailableUpgrades`: for every chain, for every
supported-template entry naming the current template, index its declared
upgrades by name (a Go map write: last write wins), observed through the
key-value pairs. -/
def collectAvailableUpgrades (templateName : String) (chains : List TemplateChain) :
    List (String × AvailableUpgrade) :=
  chains.foldl (fun m chain =>
    chain.supportedTemplates.foldl (fun m st =>
      if st.name = templateName then
        st.availableUpgrades.foldl
          (fun m au => upsertByKey Prod.fst m (au.name, au)) m
      else m) m) []

/-- `setAvailableUpgrades`: the upgrade names emitted from the map (Go map
iteration order is arbitrary; the model emits insertion order). -/
def setAvailableUpgrades (templateName : String) (chains : List TemplateChain) :
    List String :=
  (collectAvailableUpgrades templateName chains).map (fun p => p.2.name)

/-- The upgrade names the spec says should come out: those declared by
entries matching the current template, across all chains. -/
def declaredUpgradeNames (templateName : String) (chains : List TemplateChain) :
    List String :=
  (chains.map (fun chain =>
    (chain.supportedTemplates.map (fun st =>
      if st.name = templateName then st.availableUpgrades.map (fun au => au.name)
      else [])).flatten)).flatten

theorem keys_upsert (m : List (String × AvailableUpgrade)) (k : String)
    (v : AvailableUpgrade) (x : String) :
    (x ∈ (upsertByKey Prod.fst m (k, v)).map Prod.fst) ↔
      (x = k ∨ x ∈ m.map Prod.fst) := by
  unfold upsertByKey
  by_cases h : m.any (fun p => decide (p.1 = (k, v).1)) = true
  · rw [if_pos h]
    have hkeys : (m.map (fun p => if p.1 = (k, v).1 then (k, v) else p)).map Prod.fst
        = m.map Prod.fst := by
      rw [List.map_map]
      apply List.map_congr_left
      intro p _
      by_cases hp : p.1 = k
      · simp [hp]
      · simp [hp]
    rw [hkeys]
    have hk : k ∈ m.map Prod.fst := by
      simp only [List.any_eq_true, decide_eq_true_eq] at h
      obtain ⟨p, hp, he⟩ := h
      exact List.mem_map.mpr ⟨p, hp, he⟩
    constructor
    · intro hx; exact Or.inr hx
    · rintro (rfl | hx)
      · exact hk
      · exact hx
  · rw [if_neg h, List.map_append]
    simp only [List.map_cons, List.map_nil, List.mem_append, List.mem_singleton]
    tauto

theorem keys_upgradeFold (aus : List AvailableUpgrade)
    (m : List (String × AvailableUpgrade)) (x : String) :
    (x ∈ (aus.foldl (fun m au => upsertByKey Prod.fst m (au.name, au)) m).map
        Prod.fst) ↔
      (x ∈ m.map Prod.fst ∨ x ∈ aus.map (fun au => au.name)) := by
  induction aus generalizing m with
  | nil => simp
  | cons a as ih =>
    simp only [List.foldl_cons]
    rw [ih, keys_upsert]
    simp [List.mem_cons]
    tauto

theorem keys_stFold (templateName : String) (sts : List SupportedTemplate)
    (m : List (String × AvailableUpgrade)) (x : String) :
    (x ∈ (sts.foldl (fun m st =>
        if st.name = templateName then
          st.availableUpgrades.foldl
            (fun m au => upsertByKey Prod.fst m (au.name, au)) m
        else m) m).map Prod.fst) ↔
      (x ∈ m.map Prod.fst ∨
        x ∈ (sts.map (fun st =>
          if st.name = templateName
          then st.availableUpgrades.map (fun au => au.name) else [])).flatten) := by
  induction sts generalizing m with
  | nil => simp
  | cons st rest ih =>
    simp only [List.foldl_cons]
    by_cases h : st.name = templateName
    · rw [if_pos h, ih, keys_upgradeFold]
      simp only [List.map_cons, List.flatten_cons, if_pos h, List.mem_append]
      tauto
    · rw [if_neg h, ih]
      simp only [List.map_cons, List.flatten_cons, if_neg h, List.nil_append]

theorem keys_chainFold (templateName : String) (chains : List TemplateChain)
    (m : List (String × AvailableUpgrade)) (x : String) :
    (x ∈ (chains.foldl (fun m chain =>
        chain.supportedTemplates.foldl (fun m st =>
          if st.name = templateName then
            st.availableUpgrades.foldl
              (fun m au => upsertByKey Prod.fst m (au.name, au)) m
          else m) m) m).map Prod.fst) ↔
      (x ∈ m.map Prod.fst ∨ x ∈ declaredUpgradeNames templateName chains) := by
  induction chains generalizing m with
  | nil => simp [declaredUpgradeNames]
  | cons chain rest ih =>
    simp only [List.foldl_cons]
    rw [ih, keys_stFold]
    simp only [declaredUpgradeNames, List.map_cons, List.flatten_cons,
      List.mem_append]
    tauto

theorem goodPairs_upsert (m2 : List (String × AvailableUpgrade))
    (a : AvailableUpgrade) (hm2 : ∀ p ∈ m2, p.2.name = p.1) :
    ∀ p ∈ upsertByKey Prod.fst m2 (a.name, a), p.2.name = p.1 := by
  intro p hp
  unfold upsertByKey at hp
  by_cases ha : m2.any (fun q => decide (q.1 = (a.name, a).1)) = true
  · rw [if_pos ha] at hp
    obtain ⟨q, hq, he⟩ := List.mem_map.mp hp
    by_cases hq1 : q.1 = a.name
    · rw [if_pos hq1] at he; subst he; rfl
    · rw [if_neg hq1] at he; subst he; exact hm2 q hq
  · rw [if_neg ha] at hp
    rcases List.mem_append.mp hp with hp | hp
    · exact hm2 p hp
    · simp at hp; subst hp; rfl

theorem goodPairs_upgFold (aus : List AvailableUpgrade) :
    ∀ (m2 : List (String × AvailableUpgrade)),
      (∀ p ∈ m2, p.2.name = p.1) →
      ∀ p ∈ aus.foldl (fun m au => upsertByKey Prod.fst m (au.name, au)) m2,
        p.2.name = p.1 := by
  induction aus with
  | nil => intro m2 hm2; simpa using hm2
  | cons a as ih =>
    intro m2 hm2
    simp only [List.foldl_cons]
    exact ih _ (goodPairs_upsert m2 a hm2)

theorem goodPairs_stFold (templateName : String) (sts : List SupportedTemplate) :
    ∀ (m : List (String × AvailableUpgrade)),
      (∀ p ∈ m, p.2.name = p.1) →
      ∀ p ∈ sts.foldl (fun m st =>
        if st.name = templateName then
          st.availableUpgrades.foldl
            (fun m au => upsertByKey Prod.fst m (au.name, au)) m
        else m) m, p.2.name = p.1 := by
  induction sts with
  | nil => intro m hm; simpa using hm
  | cons st rest ih =>
    intro m hm
    simp only [List.foldl_cons]
    by_cases h : st.name = templateName
    · rw [if_pos h]
      exact ih _ (goodPairs_upgFold st.availableUpgrades m hm)
    · rw [if_neg h]
      exact ih _ hm

theorem collect_goodPairs (templateName : String) (chains : List TemplateChain) :
    ∀ p ∈ collectAvailableUpgrades templateName chains, p.2.name = p.1 := by
  unfold collectAvailableUpgrades
  have gen : ∀ (cs : List TemplateChain) (m : List (String × AvailableUpgrade)),
      (∀ p ∈ m, p.2.name = p.1) →
      ∀ p ∈ cs.foldl (fun m chain =>
        chain.supportedTemplates.foldl (fun m st =>
          if st.name = templateName then
            st.availableUpgrades.foldl
              (fun m au => upsertByKey Prod.fst m (au.name, au)) m
          else m) m) m, p.2.name = p.1 := by
    intro cs
    induction cs with
    | nil => intro m hm; simpa using hm
    | cons chain rest ih =>
      intro m hm
      simp only [List.foldl_cons]
      exact ih _ (goodPairs_stFold templateName chain.supportedTemplates m hm)
  exact gen chains [] (by simp)

theorem mem_setAvailableUpgrades (templateName : String)
    (chains : List TemplateChain) (x : String) :
    x ∈ setAvailableUpgrades templateName chains ↔
      x ∈ declaredUpgradeNames templateName chains := by
  unfold setAvailableUpgrades
  have hnames : (collectAvailableUpgrades templateName chains).map
      (fun p => p.2.name) =
      (collectAvailableUpgrades templateName chains).map Prod.fst :=
    List.map_congr_left (fun p hp => collect_goodPairs templateName chains p hp)
  rw [hnames]
  have := keys_chainFold templateName chains [] x
  unfold collectAvailableUpgrades
  rw [this]
  simp

theorem setAvailableUpgrades_empty (templateName : String)
    (chains : List TemplateChain)
    (h : ∀ chain ∈ chains, ∀ st ∈ chain.supportedTemplates,
      st.name ≠ templateName) :
    setAvailableUpgrades templateName chains = [] := by
  unfold setAvailableUpgrades collectAvailableUpgrades
  have stSkip : ∀ (sts : List SupportedTemplate),
      (∀ st ∈ sts, st.name ≠ templateName) →
      ∀ m : List (String × AvailableUpgrade),
      sts.foldl (fun m st =>
        if st.name = templateName then
          st.availableUpgrades.foldl
            (fun m au => upsertByKey Prod.fst m (au.name, au)) m
        else m) m = m := by
    intro sts hsts
    induction sts with
    | nil => intro m; rfl
    | cons st rest ih =>
      intro m
      simp only [List.foldl_cons]
      rw [if_neg (hsts st (List.mem_cons_self st rest))]
      exact ih (fun s hs => hsts s (List.mem_cons_of_mem st hs)) m
  have hfold : ∀ (cs : List TemplateChain),
      (∀ chain ∈ cs, ∀ st ∈ chain.supportedTemplates,
        st.name ≠ templateName) →
      ∀ m : List (String × AvailableUpgrade),
      cs.foldl (fun m chain =>
        chain.supportedTemplates.foldl (fun m st =>
          if st.name = templateName then
            st.availableUpgrades.foldl
              (fun m au => upsertByKey Prod.fst m (au.name, au)) m
          else m) m) m = m := by
    intro cs
    induction cs with
    | nil => intro _ m; rfl
    | cons chain rest ih =>
      intro hcs m
      simp only [List.foldl_cons]
      rw [stSkip chain.supportedTemplates
        (hcs chain (List.mem_cons_self chain rest)) m]
      exact ih (fun c hc2 => hcs c (List.mem_cons_of_mem chain hc2)) m
  rw [hfold chains h []]
  rfl

theorem mem_declared_perm (templateName x : String)
    (cs cs2 : List TemplateChain) (hp : List.Perm cs cs2) :
    x ∈ declaredUpgradeNames templateName cs ↔
      x ∈ declaredUpgradeNames templateName cs2 := by
  unfold declaredUpgradeNames
  simp only [List.mem_flatten, List.mem_map]
  constructor
  · rintro ⟨l, ⟨c, hc, rfl⟩, hx⟩
    exact ⟨_, ⟨c, hp.mem_iff.mp hc, rfl⟩, hx⟩
  · rintro ⟨l, ⟨c, hc, rfl⟩, hx⟩
    exact ⟨_, ⟨c, hp.mem_iff.mpr hc, rfl⟩, hx⟩

/-- C6: at every status-persist step the umbrella Ready condition follows
the rule: if any non-Ready condition is False then Ready=False with reason
Failed and message the concatenation of the False conditions' messages
(each terminated by ". "); otherwise if any is Unknown then Ready=Unknown
with reason Progressing and the Unknown messages; otherwise Ready=True. -/
theorem c6_ready_aggregation (conds : List Condition) :
    (falseConds conds ≠ [] →
      getCond (updateStatusConditions conds) ReadyCondition =
        some ⟨ReadyCondition, CStatus.isFalse, FailedReason,
          concatMessages (falseConds conds)⟩)
    ∧ (falseConds conds = [] → unknownConds conds ≠ [] →
      getCond (updateStatusConditions conds) ReadyCondition =
        some ⟨ReadyCondition, CStatus.unknown, ProgressingReason,
          concatMessages (unknownConds conds)⟩)
    ∧ (falseConds conds = [] → unknownConds conds = [] →
      getCond (updateStatusConditions conds) ReadyCondition =
        some ⟨ReadyCondition, CStatus.isTrue, SucceededReason,
          "ManagedCluster is ready"⟩) := by
  have hkey : ∀ c : Condition, c.condType = ReadyCondition →
      getCond (setStatusCondition conds c) ReadyCondition = some c := by
    intro c hc
    rw [← hc]
    exact getCond_set_self conds c
  refine ⟨?_, ?_, ?_⟩
  · intro hf
    unfold updateStatusConditions
    rw [computeReady_eq, if_pos hf]
    exact hkey _ rfl
  · intro hf hu
    unfold updateStatusConditions
    rw [computeReady_eq, if_neg (fun h2 => h2 hf), if_pos hu]
    exact hkey _ rfl
  · intro hf hu
    unfold updateStatusConditions
    rw [computeReady_eq, if_neg (fun h2 => h2 hf), if_neg (fun h2 => h2 hu)]
    exact hkey _ rfl

/-- Witness for C6 at a ledger with one failed non-Ready condition. -/
theorem c6_ready_aggregation_witness :
    falseConds [⟨HelmChartReadyCondition, CStatus.isFalse, FailedReason, "boom"⟩]
        ≠ [] ∧
    concatMessages (falseConds
      [⟨HelmChartReadyCondition, CStatus.isFalse, FailedReason, "boom"⟩])
        = "boom. " ∧
    getCond (updateStatusConditions
      [⟨HelmChartReadyCondition, CStatus.isFalse, FailedReason, "boom"⟩])
        ReadyCondition =
      some ⟨ReadyCondition, CStatus.isFalse, FailedReason,
        concatMessages (falseConds
          [⟨HelmChartReadyCondition, CStatus.isFalse, FailedReason, "boom"⟩])⟩ :=
  ⟨by decide, by decide,
    (c6_ready_aggregation
      [⟨HelmChartReadyCondition, CStatus.isFalse, FailedReason, "boom"⟩]).1
      (by decide)⟩

/-- C8: the available-upgrades resolver emits exactly the deduplicated set
of upgrade names declared by chain entries matching the template, the
result set is invariant under permutation of the chain list, and with no
matching entry the result is the empty list. -/
theorem c8_available_upgrades (templateName : String)
    (chains chains2 : List TemplateChain) (hperm : List.Perm chains chains2) :
    (setAvailableUpgrades templateName chains).toFinset =
      (declaredUpgradeNames templateName chains).toFinset
    ∧ (setAvailableUpgrades templateName chains2).toFinset =
      (setAvailableUpgrades templateName chains).toFinset
    ∧ ((∀ chain ∈ chains, ∀ st ∈ chain.supportedTemplates,
        st.name ≠ templateName) →
      setAvailableUpgrades templateName chains = []) := by
  refine ⟨?_, ?_, setAvailableUpgrades_empty templateName chains⟩
  · ext x
    simp only [List.mem_toFinset]
    exact mem_setAvailableUpgrades templateName chains x
  · ext x
    simp only [List.mem_toFinset]
    rw [mem_setAvailableUpgrades, mem_setAvailableUpgrades]
    exact (mem_declared_perm templateName x chains chains2 hperm).symm

/-- Witness for C8: two chains listed in both orders, overlapping upgrade
targets collapsed. -/
theorem c8_available_upgrades_witness :
    (setAvailableUpgrades "t1"
        [⟨[⟨"t1", [⟨"t2"⟩, ⟨"t3"⟩]⟩]⟩, ⟨[⟨"t1", [⟨"t3"⟩, ⟨"t4"⟩]⟩]⟩]).toFinset =
      (declaredUpgradeNames "t1"
        [⟨[⟨"t1", [⟨"t2"⟩, ⟨"t3"⟩]⟩]⟩, ⟨[⟨"t1", [⟨"t3"⟩, ⟨"t4"⟩]⟩]⟩]).toFinset
    ∧ (setAvailableUpgrades "t1"
        [⟨[⟨"t1", [⟨"t3"⟩, ⟨"t4"⟩]⟩]⟩, ⟨[⟨"t1", [⟨"t2"⟩, ⟨"t3"⟩]⟩]⟩]).toFinset =
      (setAvailableUpgrades "t1"
        [⟨[⟨"t1", [⟨"t2"⟩, ⟨"t3"⟩]⟩]⟩, ⟨[⟨"t1", [⟨"t3"⟩, ⟨"t4"⟩]⟩]⟩]).toFinset
    ∧ setAvailableUpgrades "t9"
        [⟨[⟨"t1", [⟨"t2"⟩, ⟨"t3"⟩]⟩]⟩, ⟨[⟨"t1", [⟨"t3"⟩, ⟨"t4"⟩]⟩]⟩] = [] := by
  have h := c8_available_upgrades "t1"
    [⟨[⟨"t1", [⟨"t2"⟩, ⟨"t3"⟩]⟩]⟩, ⟨[⟨"t1", [⟨"t3"⟩, ⟨"t4"⟩]⟩]⟩]
    [⟨[⟨"t1", [⟨"t3"⟩, ⟨"t4"⟩]⟩]⟩, ⟨[⟨"t1", [⟨"t2"⟩, ⟨"t3"⟩]⟩]⟩]
    (List.Perm.swap _ _ [])
  have h9 := c8_available_upgrades "t9"
    [⟨[⟨"t1", [⟨"t2"⟩, ⟨"t3"⟩]⟩]⟩, ⟨[⟨"t1", [⟨"t3"⟩, ⟨"t4"⟩]⟩]⟩]
    [⟨[⟨"t1", [⟨"t2"⟩, ⟨"t3"⟩]⟩]⟩, ⟨[⟨"t1", [⟨"t3"⟩, ⟨"t4"⟩]⟩]⟩]
    (List.Perm.refl _)
  exact ⟨h.1, h.2.1, h9.2.2 (by decide)⟩

/-- C5: in a propagation pass over providers [azure, vsphere] where the
azure routine fails, the vsphere routine is never invoked, the pass
returns azure's error, and the CredentialsPropagated condition is False
carrying azure's failure message only. -/
theorem c5_fail_fast (env : PropagationEnv) (conds : List Condition)
    (raw : List String) (e : String)
    (h1 : env.providersRaw = Except.ok raw)
    (h2 : getInfraProvidersNames raw = ["azure", "vsphere"])
    (h3 : env.kubeconfFetch = Except.ok ())
    (h4 : env.azureResult = Except.error e) :
    Effect.propagateVSphere ∉ (reconcileCredentialPropagation env conds).2.1
    ∧ (reconcileCredentialPropagation env conds).2.2 =
        some ("failed to create Azure CCM credentials: " ++ e)
    ∧ getCond (reconcileCredentialPropagation env conds).1
        CredentialsPropagatedCondition =
      some ⟨CredentialsPropagatedCondition, CStatus.isFalse, FailedReason,
        "failed to create Azure CCM credentials: " ++ e⟩ := by
  have hred : reconcileCredentialPropagation env conds =
      propagationLoop env.azureResult env.vsphereResult
        (getInfraProvidersNames raw) conds := by
    unfold reconcileCredentialPropagation
    rw [h1, h3]
  have hstep : propagationLoop env.azureResult env.vsphereResult
      ["azure", "vsphere"] conds =
      (setStatusCondition conds
        ⟨CredentialsPropagatedCondition, CStatus.isFalse, FailedReason,
          "failed to create Azure CCM credentials: " ++ e⟩,
       [Effect.propagateAzure],
       some ("failed to create Azure CCM credentials: " ++ e)) := by
    simp [propagationLoop, h4]
  rw [hred, h2, hstep]
  refine ⟨by simp, rfl, ?_⟩
  exact getCond_set_self conds _

/-- Witness for C5 at a concrete environment whose azure routine fails. -/
theorem c5_fail_fast_witness :
    Effect.propagateVSphere ∉ (reconcileCredentialPropagation
      ⟨"ns", "c1", Except.ok ["infrastructure-azure", "infrastructure-vsphere"],
        Except.ok (), Except.error "denied", Except.ok ()⟩ []).2.1
    ∧ (reconcileCredentialPropagation
      ⟨"ns", "c1", Except.ok ["infrastructure-azure", "infrastructure-vsphere"],
        Except.ok (), Except.error "denied", Except.ok ()⟩ []).2.2 =
      some ("failed to create Azure CCM credentials: " ++ "denied")
    ∧ getCond (reconcileCredentialPropagation
      ⟨"ns", "c1", Except.ok ["infrastructure-azure", "infrastructure-vsphere"],
        Except.ok (), Except.error "denied", Except.ok ()⟩ []).1
        CredentialsPropagatedCondition =
      some ⟨CredentialsPropagatedCondition, CStatus.isFalse, FailedReason,
        "failed to create Azure CCM credentials: " ++ "denied"⟩ :=
  c5_fail_fast
    ⟨"ns", "c1", Except.ok ["infrastructure-azure", "infrastructure-vsphere"],
      Except.ok (), Except.error "denied", Except.ok ()⟩ []
    ["infrastructure-azure", "infrastructure-vsphere"] "denied"
    rfl (by decide) rfl rfl

/-- C4 as stated is false: a pass over providers [fake, azure] with a
working azure routine returns no error, still invokes azure after
encountering the unsupported provider (no fail-fast abort), and the
CredentialsPropagated condition ends up overwritten to True. -/
theorem c4_counterexample :
    (reconcileCredentialPropagation
      ⟨"ns", "c1", Except.ok ["infrastructure-fake", "infrastructure-azure"],
        Except.ok (), Except.ok (), Except.ok ()⟩ []).2.2 = none
    ∧ Effect.propagateAzure ∈ (reconcileCredentialPropagation
      ⟨"ns", "c1", Except.ok ["infrastructure-fake", "infrastructure-azure"],
        Except.ok (), Except.ok (), Except.ok ()⟩ []).2.1
    ∧ getCond (reconcileCredentialPropagation
      ⟨"ns", "c1", Except.ok ["infrastructure-fake", "infrastructure-azure"],
        Except.ok (), Except.ok (), Except.ok ()⟩ []).1
        CredentialsPropagatedCondition =
      some ⟨CredentialsPropagatedCondition, CStatus.isTrue, SucceededReason,
        "Azure CCM credentials created"⟩ := by
  decide

/-- C4 amended: an unregistered provider sets the CredentialsPropagated
condition False with the "unsupported infrastructure provider" message at
that point, but the loop then simply continues with the remaining
providers (which may overwrite the condition), and the unsupported
provider itself contributes no error: alone at the end of the list it
yields no returned error. -/
theorem c4_unsupported_provider (az vs : Except String Unit) (p : String)
    (rest : List String) (conds : List Condition)
    (h1 : p ≠ "aws") (h2 : p ≠ "azure") (h3 : p ≠ "vsphere") :
    propagationLoop az vs (p :: rest) conds =
      propagationLoop az vs rest (setStatusCondition conds
        ⟨CredentialsPropagatedCondition, CStatus.isFalse, FailedReason,
          "unsupported infrastructure provider " ++ p⟩)
    ∧ getCond (setStatusCondition conds
        ⟨CredentialsPropagatedCondition, CStatus.isFalse, FailedReason,
          "unsupported infrastructure provider " ++ p⟩)
        CredentialsPropagatedCondition =
      some ⟨CredentialsPropagatedCondition, CStatus.isFalse, FailedReason,
        "unsupported infrastructure provider " ++ p⟩
    ∧ propagationLoop az vs [p] conds =
      (setStatusCondition conds
        ⟨CredentialsPropagatedCondition, CStatus.isFalse, FailedReason,
          "unsupported infrastructure provider " ++ p⟩, [], none) := by
  refine ⟨?_, getCond_set_self conds _, ?_⟩
  · conv_lhs => rw [propagationLoop.eq_def]
    simp only [if_neg h1, if_neg h2, if_neg h3]
  · conv_lhs => rw [propagationLoop.eq_def]
    simp only [if_neg h1, if_neg h2, if_neg h3]
    rfl

/-- Witness for the amended C4 at provider "fake". -/
theorem c4_unsupported_provider_witness :
    propagationLoop (Except.ok ()) (Except.ok ()) ["fake", "azure"] [] =
      propagationLoop (Except.ok ()) (Except.ok ()) ["azure"]
        (setStatusCondition []
          ⟨CredentialsPropagatedCondition, CStatus.isFalse, FailedReason,
            "unsupported infrastructure provider " ++ "fake"⟩)
    ∧ getCond (setStatusCondition []
        ⟨CredentialsPropagatedCondition, CStatus.isFalse, FailedReason,
          "unsupported infrastructure provider " ++ "fake"⟩)
        CredentialsPropagatedCondition =
      some ⟨CredentialsPropagatedCondition, CStatus.isFalse, FailedReason,
        "unsupported infrastructure provider " ++ "fake"⟩
    ∧ propagationLoop (Except.ok ()) (Except.ok ()) ["fake"] [] =
      (setStatusCondition []
        ⟨CredentialsPropagatedCondition, CStatus.isFalse, FailedReason,
          "unsupported infrastructure provider " ++ "fake"⟩, [], none) :=
  c4_unsupported_provider (Except.ok ()) (Except.ok ()) "fake" ["azure"] []
    (by decide) (by decide) (by decide)

/-- Deletion environment in which the release, the profile and an azure
workload with a dependent Machine are all still present. -/
def dEnvRelease : DeleteEnv :=
  ⟨"c1", "ns", HrGetRes.found, true, none, none,
    Except.ok ["infrastructure-azure"],
    fun _ => GetClusterRes.found ⟨"c1", true⟩,
    fun _ => Except.ok true, fun _ => none⟩

/-- C2 as stated is false: with the release still present (and the profile
and a machine-bearing workload present), a single deletion pass does not
stop after requesting release deletion — it also requests deletion of the
service profile in the same pass. -/
theorem c2_counterexample :
    (deleteReconcile dEnvRelease).effects =
      [Effect.deleteRelease, Effect.deleteProfile]
    ∧ Effect.deleteProfile ∈ (deleteReconcile dEnvRelease).effects
    ∧ (deleteReconcile dEnvRelease).requeueAfter = some 10
    ∧ dEnvRelease.hrGet = HrGetRes.found := by
  decide

/-- C2 amended: while the release still exists, a deletion pass requests
release deletion, never removes the object's own finalizer, also requests
profile deletion when the release-deletion call succeeds, and requeues
after 10 seconds when no teardown call errored. -/
theorem c2_release_present (env : DeleteEnv) (h : env.hrGet = HrGetRes.found) :
    Effect.deleteRelease ∈ (deleteReconcile env).effects
    ∧ Effect.removeOwnFinalizer ∉ (deleteReconcile env).effects
    ∧ (env.deleteReleaseErr = none →
      Effect.deleteProfile ∈ (deleteReconcile env).effects)
    ∧ ((deleteReconcile env).errMsg = none →
      (deleteReconcile env).requeueAfter = some 10) := by
  simp only [deleteReconcile, h]
  cases hdr : env.deleteReleaseErr with
  | some e =>
    exact ⟨by simp, by simp, fun hc => by simp at hc, fun hq => by simp at hq⟩
  | none =>
    cases hdp : env.deleteProfileErr with
    | some e =>
      exact ⟨by simp, by simp, fun _ => by simp, fun hq => by simp at hq⟩
    | none =>
      cases hpr : env.providersRaw with
      | error e =>
        exact ⟨by simp, by simp, fun _ => by simp, fun hq => by simp at hq⟩
      | ok raw =>
        cases hrc : (releaseClusterLoop env (getInfraProvidersNames raw)).2 with
        | some e =>
          refine ⟨by simp [hrc], ?_, fun _ => by simp [hrc], fun hq => ?_⟩
          · intro hmem
            simp [hrc] at hmem
            obtain ⟨p, c, heq, _⟩ :=
              releaseClusterLoop_effects_sub env (getInfraProvidersNames raw)
                Effect.removeOwnFinalizer hmem
            cases heq
          · simp [hrc] at hq
        | none =>
          refine ⟨by simp [hrc], ?_, fun _ => by simp [hrc], fun _ => by simp [hrc]⟩
          intro hmem
          simp [hrc] at hmem
          obtain ⟨p, c, heq, _⟩ :=
            releaseClusterLoop_effects_sub env (getInfraProvidersNames raw)
              Effect.removeOwnFinalizer hmem
          cases heq

/-- Witness for the amended C2 at the concrete release-present
environment. -/
theorem c2_release_present_witness :
    Effect.deleteRelease ∈ (deleteReconcile dEnvRelease).effects
    ∧ Effect.removeOwnFinalizer ∉ (deleteReconcile dEnvRelease).effects
    ∧ Effect.deleteProfile ∈ (deleteReconcile dEnvRelease).effects
    ∧ (deleteReconcile dEnvRelease).requeueAfter = some 10 :=
  ⟨(c2_release_present dEnvRelease rfl).1,
   (c2_release_present dEnvRelease rfl).2.1,
   (c2_release_present dEnvRelease rfl).2.2.1 rfl,
   (c2_release_present dEnvRelease rfl).2.2.2 (by decide)⟩

/-- First pass of the C3 counterexample: release still present, azure
workload carries the blocking finalizer, a dependent Machine exists. -/
def dEnvPassOne : DeleteEnv :=
  ⟨"c1", "ns", HrGetRes.found, true, none, none,
    Except.ok ["infrastructure-azure"],
    fun _ => GetClusterRes.found ⟨"c1", true⟩,
    fun _ => Except.ok true, fun _ => none⟩

/-- Second pass of the C3 counterexample: the release is now gone, but the
workload's blocking finalizer (never patched in pass one, since a Machine
still existed) is still present. -/
def dEnvPassTwo : DeleteEnv :=
  ⟨"c1", "ns", HrGetRes.notFound, true, none, none,
    Except.ok ["infrastructure-azure"],
    fun _ => GetClusterRes.found ⟨"c1", true⟩,
    fun _ => Except.ok true, fun _ => none⟩

/-- C3 as stated is false: pass one (release present, Machine present)
patches no blocking finalizer; pass two finds the release gone and removes
the object's own finalizer even though the workload still carries the
blocking finalizer. -/
theorem c3_counterexample :
    (deleteReconcile dEnvPassOne).effects =
      [Effect.deleteRelease, Effect.deleteProfile]
    ∧ (deleteReconcile dEnvPassOne).requeueAfter = some 10
    ∧ dEnvPassTwo.getCluster "azure" = GetClusterRes.found ⟨"c1", true⟩
    ∧ (deleteReconcile dEnvPassTwo).effects = [Effect.removeOwnFinalizer] := by
  decide

/-- C3 amended: the object's own finalizer is removed exactly when the
HelmRelease is no longer found (regardless of the workload's blocking
finalizer), and a blocking-finalizer patch happens only in a pass where
the release still exists, for a workload that carries the finalizer and
has no dependent Machines left. -/
theorem c3_finalizer_ordering (env : DeleteEnv) :
    (Effect.removeOwnFinalizer ∈ (deleteReconcile env).effects ↔
      env.hrGet = HrGetRes.notFound ∧ env.ownFinalizerPresent = true)
    ∧ (∀ p, Effect.patchBlockingFinalizer p ∈ (deleteReconcile env).effects →
      env.hrGet = HrGetRes.found ∧
        ∃ c, env.getCluster p = GetClusterRes.found c ∧
          c.hasBlockingFinalizer = true ∧
          env.machinesExist c.name = Except.ok false) := by
  cases hget : env.hrGet with
  | errored m =>
    simp only [deleteReconcile, hget]
    constructor
    · simp
    · intro p hp; simp at hp
  | notFound =>
    simp only [deleteReconcile, hget]
    constructor
    · cases hof : env.ownFinalizerPresent <;> simp [hof]
    · intro p hp
      cases hof : env.ownFinalizerPresent <;> rw [hof] at hp <;> simp at hp
  | found =>
    simp only [deleteReconcile, hget]
    cases hdr : env.deleteReleaseErr with
    | some e =>
      constructor
      · simp
      · intro p hp; simp at hp
    | none =>
      cases hdp : env.deleteProfileErr with
      | some e =>
        constructor
        · simp
        · intro p hp; simp at hp
      | none =>
        cases hpr : env.providersRaw with
        | error e =>
          constructor
          · simp
          · intro p hp; simp at hp
        | ok raw =>
          have hsub := fun e he =>
            releaseClusterLoop_effects_sub env (getInfraProvidersNames raw) e he
          cases hrc : (releaseClusterLoop env (getInfraProvidersNames raw)).2 with
          | some e =>
            constructor
            · constructor
              · intro hmem
                simp [hrc] at hmem
                obtain ⟨q, c, heq, _⟩ := hsub _ hmem
                cases heq
              · rintro ⟨hc, _⟩; cases hc
            · intro p hp
              simp [hrc] at hp
              obtain ⟨q, c, heq, hgc, hb, hm⟩ := hsub _ hp
              cases heq
              exact ⟨by trivial, c, hgc, hb, hm⟩
          | none =>
            constructor
            · constructor
              · intro hmem
                simp [hrc] at hmem
                obtain ⟨q, c, heq, _⟩ := hsub _ hmem
                cases heq
              · rintro ⟨hc, _⟩; cases hc
            · intro p hp
              simp [hrc] at hp
              obtain ⟨q, c, heq, hgc, hb, hm⟩ := hsub _ hp
              cases heq
              exact ⟨by trivial, c, hgc, hb, hm⟩

/-- Third environment for C3's amended claim: no Machines remain, so the
pass patches the blocking finalizer away while the release still exists. -/
def dEnvDrained : DeleteEnv :=
  ⟨"c1", "ns", HrGetRes.found, true, none, none,
    Except.ok ["infrastructure-azure"],
    fun _ => GetClusterRes.found ⟨"c1", true⟩,
    fun _ => Except.ok false, fun _ => none⟩

/-- Witness for the amended C3 at the drained environment. -/
theorem c3_finalizer_ordering_witness :
    dEnvDrained.hrGet = HrGetRes.found ∧
      ∃ c, dEnvDrained.getCluster "azure" = GetClusterRes.found c ∧
        c.hasBlockingFinalizer = true ∧
        dEnvDrained.machinesExist c.name = Except.ok false :=
  (c3_finalizer_ordering dEnvDrained).2 "azure" (by decide)

theorem computeReady_condType (conds : List Condition) :
    (computeReadyCondition conds).condType = ReadyCondition := by
  rw [computeReady_eq]
  by_cases hf : falseConds conds ≠ []
  · rw [if_pos hf]
  · rw [if_neg hf]
    by_cases hu : unknownConds conds ≠ []
    · rw [if_pos hu]
    · rw [if_neg hu]

/-- C7: a reconcile whose referenced template is not marked valid returns
the validation error, sets TemplateReady False with reason Failed, and
issues no external call at all — in particular no release upsert. -/
theorem c7_invalid_template (env : UpdateEnv) (t : ClusterTemplate)
    (hf : env.finalizerPresent = true)
    (ht : env.templateFetch = Except.ok t)
    (hv : t.valid = false) :
    (update env).errMsg = some "provided template is not marked as valid"
    ∧ (update env).effects = []
    ∧ getCond (update env).conditions TemplateReadyCondition =
      some ⟨TemplateReadyCondition, CStatus.isFalse, FailedReason,
        "provided template is not marked as valid"⟩ := by
  have hred : update env = finishStatus (setStatusCondition
      (if env.conditionsAtEntry.isEmpty then initConditions env.conditionsAtEntry
       else env.conditionsAtEntry)
      ⟨TemplateReadyCondition, CStatus.isFalse, FailedReason,
        "provided template is not marked as valid"⟩)
      none (some "provided template is not marked as valid") [] := by
    unfold update
    rw [hf, ht]
    simp [hv]
  rw [hred]
  refine ⟨rfl, rfl, ?_⟩
  show getCond (updateStatusConditions _) TemplateReadyCondition = _
  unfold updateStatusConditions
  rw [getCond_set_other _ _ _
    (by rw [computeReady_condType]; decide)]
  exact getCond_set_self _ _

/-- Environment of the C7 witness: everything healthy except the invalid
template. -/
def uEnvInvalidTemplate : UpdateEnv :=
  ⟨true, [], false, [("region", JVal.str "eu")],
    Except.ok ⟨false, "v1.30.0", true, ["infrastructure-azure"]⟩,
    Except.ok (), Except.ok (), none, Except.ok (),
    Except.ok ⟨"Ready", ⟨"AzureClusterIdentity", "ident", "ns1"⟩⟩,
    Except.ok ⟨none⟩, ClusterStatusRes.ok [],
    ⟨"ns1", "c1", Except.ok ["infrastructure-azure"], Except.ok (),
      Except.ok (), Except.ok ()⟩,
    none, none⟩

/-- Witness for C7 at the invalid-template environment. -/
theorem c7_invalid_template_witness :
    (update uEnvInvalidTemplate).errMsg =
      some "provided template is not marked as valid"
    ∧ (update uEnvInvalidTemplate).effects = []
    ∧ getCond (update uEnvInvalidTemplate).conditions TemplateReadyCondition =
      some ⟨TemplateReadyCondition, CStatus.isFalse, FailedReason,
        "provided template is not marked as valid"⟩ :=
  c7_invalid_template uEnvInvalidTemplate
    ⟨false, "v1.30.0", true, ["infrastructure-azure"]⟩ rfl rfl rfl

/-- C9: a dry-run reconcile with a valid template, a healthy chart and a
Ready credential returns no error, requests no requeue, issues no external
call (in particular no release upsert), and persists an umbrella Ready
condition that is True. -/
theorem c9_dry_run (env : UpdateEnv) (t : ClusterTemplate) (cred : Credential)
    (hf : env.finalizerPresent = true)
    (hc0 : env.conditionsAtEntry = [])
    (ht : env.templateFetch = Except.ok t)
    (hv : t.valid = true)
    (hcr : t.chartRefPresent = true)
    (hs : env.sourceGet = Except.ok ())
    (hd : env.downloadChart = Except.ok ())
    (ha : env.actionCfgErr = none)
    (hval : env.validateRelease = Except.ok ())
    (hcred : env.credentialFetch = Except.ok cred)
    (hst : cred.state = credentialReadyState)
    (hdr : env.dryRun = true) :
    (update env).errMsg = none
    ∧ (update env).requeueAfter = none
    ∧ (update env).effects = []
    ∧ getCond (update env).conditions ReadyCondition =
      some ⟨ReadyCondition, CStatus.isTrue, SucceededReason,
        "ManagedCluster is ready"⟩ := by
  have hred : update env = finishStatus
      (setStatusCondition (setStatusCondition (setStatusCondition
        (initConditions [])
        ⟨TemplateReadyCondition, CStatus.isTrue, SucceededReason,
          "Template is valid"⟩)
        ⟨HelmChartReadyCondition, CStatus.isTrue, SucceededReason,
          "Helm chart is valid"⟩)
        ⟨CredentialReadyCondition, CStatus.isTrue, SucceededReason,
          "Credential is Ready"⟩)
      none none [] := by
    unfold update updateAfterCredential
    rw [hf, hc0, ht, hcred, hdr]
    simp [hv, hcr, hs, hd, ha, hval, hst]
  rw [hred]
  exact ⟨rfl, rfl, rfl, by decide⟩

/-- Environment of the C9 witness: dry run, valid template, Ready
credential. -/
def uEnvDryRun : UpdateEnv :=
  ⟨true, [], true, [("region", JVal.str "eu")],
    Except.ok ⟨true, "v1.30.0", true, ["infrastructure-azure"]⟩,
    Except.ok (), Except.ok (), none, Except.ok (),
    Except.ok ⟨"Ready", ⟨"AzureClusterIdentity", "ident", "ns1"⟩⟩,
    Except.ok ⟨none⟩, ClusterStatusRes.ok [],
    ⟨"ns1", "c1", Except.ok ["infrastructure-azure"], Except.ok (),
      Except.ok (), Except.ok ()⟩,
    none, none⟩

/-- Witness for C9 at the dry-run environment. -/
theorem c9_dry_run_witness :
    (update uEnvDryRun).errMsg = none
    ∧ (update uEnvDryRun).requeueAfter = none
    ∧ (update uEnvDryRun).effects = []
    ∧ getCond (update uEnvDryRun).conditions ReadyCondition =
      some ⟨ReadyCondition, CStatus.isTrue, SucceededReason,
        "ManagedCluster is ready"⟩ :=
  c9_dry_run uEnvDryRun ⟨true, "v1.30.0", true, ["infrastructure-azure"]⟩
    ⟨"Ready", ⟨"AzureClusterIdentity", "ident", "ns1"⟩⟩
    rfl rfl rfl rfl rfl rfl rfl rfl rfl rfl rfl rfl

/-- Environment exhibiting the credential-readiness defect: the fetched
credential is in state "Pending" (not Ready), everything else healthy,
dry-run off. -/
def uEnvCredNotReady : UpdateEnv :=
  ⟨true, [], false, [("region", JVal.str "eu")],
    Except.ok ⟨true, "v1.30.0", true, ["infrastructure-azure"]⟩,
    Except.ok (), Except.ok (), none, Except.ok (),
    Except.ok ⟨"Pending", ⟨"AzureClusterIdentity", "ident", "ns1"⟩⟩,
    Except.ok ⟨some ⟨"Ready", CStatus.isTrue, "InstallSucceeded",
      "Release reconciliation succeeded"⟩⟩,
    ClusterStatusRes.ok [],
    ⟨"ns1", "c1", Except.ok ["infrastructure-azure"], Except.ok (),
      Except.ok (), Except.ok ()⟩,
    none, none⟩

/-- C1, evaluated at the failing input: the fetched credential is not in
the Ready state, yet the pass proceeds to the release upsert and the
persisted CredentialReady condition ends up True — the False condition set
by the not-ready branch is unconditionally overwritten on the next
statement, and the pass does not stop. -/
theorem c1_credential_not_ready_bug :
    uEnvCredNotReady.credentialFetch =
      Except.ok ⟨"Pending", ⟨"AzureClusterIdentity", "ident", "ns1"⟩⟩
    ∧ "Pending" ≠ credentialReadyState
    ∧ Effect.upsertRelease (setIdentityHelmValues uEnvCredNotReady.config
        ⟨"AzureClusterIdentity", "ident", "ns1"⟩) ∈
      (update uEnvCredNotReady).effects
    ∧ getCond (update uEnvCredNotReady).conditions CredentialReadyCondition =
      some ⟨CredentialReadyCondition, CStatus.isTrue, SucceededReason,
        "Credential is Ready"⟩
    ∧ (update uEnvCredNotReady).errMsg = none := by
  refine ⟨rfl, by decide, ?_, ?_, ?_⟩ <;> decide

theorem upsert_not_in_propagation (env : PropagationEnv) (conds : List Condition)
    (v : List (String × JVal)) :
    Effect.upsertRelease v ∉ (reconcileCredentialPropagation env conds).2.1 := by
  unfold reconcileCredentialPropagation
  cases hp : env.providersRaw with
  | error e => simp
  | ok raw =>
    cases hk : env.kubeconfFetch with
    | error e => simp
    | ok u =>
      intro hmem
      rcases propagationLoop_effects_sub env.azureResult env.vsphereResult
        (getInfraProvidersNames raw) conds _ hmem with h | h <;> cases h

theorem upsert_in_afterCredential (env : UpdateEnv) (cred : Credential)
    (conds : List Condition) (v : List (String × JVal))
    (h : Effect.upsertRelease v ∈ (updateAfterCredential env cred conds).effects) :
    v = setIdentityHelmValues env.config cred.identityRef := by
  unfold updateAfterCredential at h
  cases hd : env.dryRun with
  | true => rw [hd] at h; simp [finishStatus] at h
  | false =>
    rw [hd] at h
    simp only [Bool.false_eq_true, if_false] at h
    cases hu : env.upsertResult with
    | error e =>
      simp only [hu, finishStatus] at h
      simp at h
      exact h
    | ok hr =>
      simp only [hu] at h
      have hprop := fun conds2 =>
        upsert_not_in_propagation env.prop conds2 v
      cases hcs : (setStatusFromClusterStatus env.clusterStatus
          (match hr.readyCondition with
            | some c => setStatusCondition conds
                ⟨HelmReleaseReadyCondition, c.status, c.reason, c.message⟩
            | none => conds)).2.2 with
      | some e =>
        simp only [hcs, finishStatus] at h
        split at h <;> simp at h <;> exact h
      | none =>
        simp only [hcs, finishStatus] at h
        split at h
        · simp at h; exact h
        · split at h
          · simp at h; exact h
          · cases hpr : (reconcileCredentialPropagation env.prop
                (setStatusFromClusterStatus env.clusterStatus
                  (match hr.readyCondition with
                    | some c => setStatusCondition conds
                        ⟨HelmReleaseReadyCondition, c.status, c.reason, c.message⟩
                    | none => conds)).1).2.2 with
            | some e =>
              simp only [hpr, finishStatus] at h
              simp at h
              rcases h with h | h
              · exact h
              · exact absurd h (hprop _)
            | none =>
              simp only [hpr, finishStatus] at h
              cases hsv : env.svcOptsErr with
              | some e =>
                simp only [hsv] at h
                simp at h
                rcases h with h | h
                · exact h
                · exact absurd h (hprop _)
              | none =>
                simp only [hsv] at h
                cases hpe : env.profileErr with
                | some e =>
                  simp only [hpe] at h
                  simp at h
                  rcases h with h | h
                  · exact h
                  · exact absurd h (hprop _)
                | none =>
                  simp only [hpe] at h
                  simp at h
                  rcases h with h | h
                  · exact h
                  · exact absurd h (hprop _)

/-- C10: whenever a reconcile reaches the release upsert, the values it
hands over are exactly the configuration payload with the top-level
"clusterIdentity" key overwritten by the credential's identity reference:
that key maps to the identity reference (whatever the user supplied
there), and every other top-level key is unchanged. -/
theorem c10_identity_values (env : UpdateEnv) (v : List (String × JVal))
    (h : Effect.upsertRelease v ∈ (update env).effects) :
    ∃ cred, env.credentialFetch = Except.ok cred
      ∧ v = setIdentityHelmValues env.config cred.identityRef
      ∧ getVal v "clusterIdentity" = some (JVal.idRef cred.identityRef)
      ∧ ∀ k, k ≠ "clusterIdentity" → getVal v k = getVal env.config k := by
  have hcore : ∃ cred, env.credentialFetch = Except.ok cred
      ∧ v = setIdentityHelmValues env.config cred.identityRef := by
    unfold update at h
    cases hf : env.finalizerPresent with
    | false => rw [hf] at h; simp at h
    | true =>
      rw [hf] at h
      simp only [Bool.not_true, Bool.false_eq_true, if_false] at h
      cases ht : env.templateFetch with
      | error fe => simp only [ht, finishStatus] at h; simp at h
      | ok t =>
        simp only [ht] at h
        cases hv : t.valid with
        | false => rw [hv] at h; simp [finishStatus] at h
        | true =>
          rw [hv] at h
          simp only [Bool.not_true, Bool.false_eq_true, if_false] at h
          cases hsrc : (if t.chartRefPresent = true then env.sourceGet
              else Except.error "helm chart source is not provided") with
          | error e => simp only [hsrc, finishStatus] at h; simp at h
          | ok u =>
            simp only [hsrc] at h
            cases hdl : env.downloadChart with
            | error e => simp only [hdl, finishStatus] at h; simp at h
            | ok u2 =>
              simp only [hdl] at h
              cases hac : env.actionCfgErr with
              | some e => simp only [hac, finishStatus] at h; simp at h
              | none =>
                simp only [hac] at h
                cases hvr : env.validateRelease with
                | error e => simp only [hvr, finishStatus] at h; simp at h
                | ok u3 =>
                  simp only [hvr] at h
                  cases hcred : env.credentialFetch with
                  | error e => simp only [hcred, finishStatus] at h; simp at h
                  | ok cred =>
                    simp only [hcred] at h
                    exact ⟨cred, rfl, upsert_in_afterCredential env cred _ v h⟩
  obtain ⟨cred, hcred, hvv⟩ := hcore
  refine ⟨cred, hcred, hvv, ?_, ?_⟩
  · rw [hvv]
    exact getVal_setKey_self env.config "clusterIdentity" (JVal.idRef cred.identityRef)
  · intro k hk
    rw [hvv]
    exact getVal_setKey_other env.config "clusterIdentity"
      (JVal.idRef cred.identityRef) k hk

/-- Witness for C10 at the concrete environment of the defect theorem,
whose pass does reach the upsert. -/
theorem c10_identity_values_witness :
    Effect.upsertRelease (setIdentityHelmValues uEnvCredNotReady.config
        ⟨"AzureClusterIdentity", "ident", "ns1"⟩) ∈
      (update uEnvCredNotReady).effects
    ∧ ∃ cred, uEnvCredNotReady.credentialFetch = Except.ok cred
      ∧ setIdentityHelmValues uEnvCredNotReady.config
          ⟨"AzureClusterIdentity", "ident", "ns1"⟩ =
        setIdentityHelmValues uEnvCredNotReady.config cred.identityRef
      ∧ getVal (setIdentityHelmValues uEnvCredNotReady.config
          ⟨"AzureClusterIdentity", "ident", "ns1"⟩) "clusterIdentity" =
        some (JVal.idRef cred.identityRef)
      ∧ ∀ k, k ≠ "clusterIdentity" →
        getVal (setIdentityHelmValues uEnvCredNotReady.config
          ⟨"AzureClusterIdentity", "ident", "ns1"⟩) k =
        getVal uEnvCredNotReady.config k :=
  ⟨by decide,
   c10_identity_values uEnvCredNotReady
     (setIdentityHelmValues uEnvCredNotReady.config
       ⟨"AzureClusterIdentity", "ident", "ns1"⟩) (by decide)⟩

end HMC
